import Mathlib

/-!
Shallow embedding of the VibePlay engine orchestration core
(SceneManager, SystemManager, Engine tick loop, AssetManager), translated
from the TypeScript source.  Scenes, systems and assets are reduced to the
data the managers actually inspect; hook invocations and event emissions
are recorded in explicit logs so that ordering and counting claims can be
stated.  All definitions are executable.
-/

namespace VibePlay

/-! ### SceneManager (src/core/SceneManager.ts)

A `GameScene` is abstract (`onActivate` etc. are caller-provided hooks);
the manager only branches on whether a scene object carries a
`handleResize` member (duck-typed capability check in `handleResize`).
Hook calls and `emit` notifications are appended to a call log. -/

/-- A registered scene, reduced to the only property the manager code
inspects: whether the object has a `handleResize` member. -/
structure GameScene where
  hasHandleResize : Bool
deriving DecidableEq, Repr

/-- One observable action of the SceneManager: a lifecycle hook call on a
scene, or an EventEmitter notification. -/
inductive SceneCall where
  | onDeactivate (id : String)
  | emitSceneDeactivated (id : String)
  | onActivate (id : String)
  | emitSceneActivated (id : String)
  | sceneUpdate (id : String) (dt : Int)
  | cameraResize (w h : Int)
  | sceneHandleResize (id : String) (w h : Int)
  | disposeScene (id : String)
deriving DecidableEq, Repr

/-- State of a `SceneManager`: the id→scene registry (a JS `Map`, kept in
insertion order with unique keys), the `_activeSceneId` field, and the log
of hook calls / notifications performed so far. -/
structure SMState where
  scenes : List (String × GameScene)
  activeSceneId : Option String
  calls : List SceneCall
deriving DecidableEq, Repr

/-- The `activeScene` getter: `_activeSceneId ? _scenes.get(id) || null : null`. -/
def activeScene (s : SMState) : Option GameScene :=
  match s.activeSceneId with
  | some id => s.scenes.lookup id
  | none => none

/-- `registerScene(id, scene)`: warn and no-op when the id exists,
otherwise insert. -/
def registerScene (s : SMState) (id : String) (scene : GameScene) : SMState :=
  if (s.scenes.lookup id).isSome then s
  else { s with scenes := s.scenes ++ [(id, scene)] }

/-- `activateScene(id | null)`: deactivate the current scene when one is
set (hook + notification), then either clear the id (`null`), no-op with
an error log when the id is unknown (note: the stale `_activeSceneId` is
NOT cleared on this path), or set the new id, call `onActivate` and emit. -/
def activateScene (s : SMState) (id : Option String) : SMState :=
  let s1 :=
    match s.activeSceneId with
    | some cur =>
      match s.scenes.lookup cur with
      | some _ =>
        { s with calls := s.calls ++ [SceneCall.onDeactivate cur, SceneCall.emitSceneDeactivated cur] }
      | none => s
    | none => s
  match id with
  | none => { s1 with activeSceneId := none }
  | some i =>
    match s1.scenes.lookup i with
    | none => s1
    | some _ =>
      { s1 with activeSceneId := some i,
                calls := s1.calls ++ [SceneCall.onActivate i, SceneCall.emitSceneActivated i] }

/-- `unregisterScene(id)`: warn and no-op when absent; when the scene is
the active one, first `activateScene(null)`; then dispose and delete. -/
def unregisterScene (s : SMState) (id : String) : SMState :=
  match s.scenes.lookup id with
  | none => s
  | some _ =>
    let s1 := if s.activeSceneId = some id then activateScene s none else s
    { s1 with scenes := s1.scenes.eraseP (fun p => p.1 == id),
              calls := s1.calls ++ [SceneCall.disposeScene id] }

/-- `SceneManager.update(dt)`: delegate to the active scene when set. -/
def updateScenes (s : SMState) (dt : Int) : SMState :=
  match s.activeSceneId with
  | some id =>
    match s.scenes.lookup id with
    | some _ => { s with calls := s.calls ++ [SceneCall.sceneUpdate id dt] }
    | none => s
  | none => s

/-- `handleResize(w, h)`: update the default camera, then forward to the
active scene when it exposes a `handleResize` member. -/
def smHandleResize (s : SMState) (w h : Int) : SMState :=
  let s1 := { s with calls := s.calls ++ [SceneCall.cameraResize w h] }
  match s1.activeSceneId with
  | some id =>
    match s1.scenes.lookup id with
    | some sc =>
      if sc.hasHandleResize then
        { s1 with calls := s1.calls ++ [SceneCall.sceneHandleResize id w h] }
      else s1
    | none => s1
  | none => s1

/-- `SceneManager.dispose()`: dispose every scene, clear the registry and
the active id. -/
def smDispose (s : SMState) : SMState :=
  { scenes := [],
    activeSceneId := none,
    calls := s.calls ++ s.scenes.map (fun p => SceneCall.disposeScene p.1) }

/-- One external call into the SceneManager. -/
inductive SMOp where
  | register (id : String) (scene : GameScene)
  | unregister (id : String)
  | activate (id : Option String)
  | update (dt : Int)
  | handleResize (w h : Int)
  | dispose
deriving DecidableEq, Repr

/-- Interpret one SceneManager call. -/
def SMStep (s : SMState) : SMOp → SMState
  | .register id sc => registerScene s id sc
  | .unregister id => unregisterScene s id
  | .activate id => activateScene s id
  | .update dt => updateScenes s dt
  | .handleResize w h => smHandleResize s w h
  | .dispose => smDispose s

/-- Interpret a sequence of SceneManager calls. -/
def SMRun (s : SMState) : List SMOp → SMState
  | [] => s
  | op :: ops => SMRun (SMStep s op) ops

/-- Freshly constructed SceneManager: empty registry, no active scene. -/
def SMInit : SMState :=
  { scenes := [], activeSceneId := none, calls := [] }

/-! ### SystemManager (src/core/SystemManager.ts) -/

/-- A registered system, reduced to the fields the manager reads:
`name` (registry key), `priority` and `isEnabled`. -/
structure System where
  name : String
  priority : Int
  isEnabled : Bool
deriving DecidableEq, Repr

/-- The sort relation used by `_sortSystems`: the comparator
`(a, b) => b.priority - a.priority` orders by descending priority. -/
def sysLe (a b : System) : Prop :=
  b.priority ≤ a.priority

instance : DecidableRel sysLe :=
  fun a b => inferInstanceAs (Decidable (b.priority ≤ a.priority))

instance : IsTotal System sysLe :=
  ⟨fun a b => le_total b.priority a.priority⟩

instance : IsTrans System sysLe :=
  ⟨fun _ _ _ h1 h2 => le_trans h2 h1⟩

/-- `_sortSystems`: `Array.from(map.values()).sort((a,b) => b.priority - a.priority)`.
`Array.prototype.sort` is stable (ES2019), and a stable sort by descending
priority of a given list is unique, so any stable descending insertion
realises it; `List.insertionSort sysLe` is such a sort. -/
def sortSystems (l : List System) : List System :=
  List.insertionSort sysLe l

/-- State of a `SystemManager`: the name→system registry in insertion
order, the cached `_sortedSystems` array and the `_needsSort` flag. -/
structure SysMState where
  systems : List System
  sortedSystems : List System
  needsSort : Bool
deriving DecidableEq, Repr

/-- Freshly constructed SystemManager. -/
def SysMInit : SysMState :=
  { systems := [], sortedSystems := [], needsSort := false }

/-- `registerSystem(system)`: warn and no-op when the name exists;
otherwise store and mark the cached order stale (`init()` is
fire-and-forget and does not touch manager state). -/
def registerSystem (s : SysMState) (sys : System) : SysMState :=
  if s.systems.any (fun x => x.name == sys.name) then s
  else { s with systems := s.systems ++ [sys], needsSort := true }

/-- `unregisterSystem(name)`: warn and no-op when absent; otherwise
dispose, remove, and mark the order stale. -/
def unregisterSystem (s : SysMState) (name : String) : SysMState :=
  if s.systems.any (fun x => x.name == name) then
    { s with systems := s.systems.eraseP (fun x => x.name == name),
             needsSort := true }
  else s

/-- `getSystem(name)`: the system or `null`. -/
def getSystem (s : SysMState) (name : String) : Option System :=
  s.systems.find? (fun x => x.name == name)

/-- `SystemManager.update(dt)`: re-sort when stale, then call `update`
on every enabled system in the sorted order.  Returns the new state and
the sequence of systems whose `update(dt)` ran, in call order. -/
def updateSys (s : SysMState) (_dt : Int) : SysMState × List System :=
  let s1 :=
    if s.needsSort then
      { s with sortedSystems := sortSystems s.systems, needsSort := false }
    else s
  (s1, s1.sortedSystems.filter (fun x => x.isEnabled))

/-- Register a list of systems in order on a fresh manager. -/
def registerAll (l : List System) : SysMState :=
  l.foldl registerSystem SysMInit

/-! ### Engine frame loop (src/core/Engine.ts, `_tick`) -/

/-- One step observed during a frame tick. -/
inductive FrameStep where
  | emitPreUpdate
  | systemUpdate (name : String)
  | inputUpdate
  | sceneManagerUpdate
  | emitPostUpdate
  | render
  | scheduleNextFrame
deriving DecidableEq, Repr

/-- Engine state visible to `_tick`: the running flag, `_lastTime`, the
two managers whose updates carry structure, and the trace of steps
performed so far. -/
structure EngineState where
  isRunning : Bool
  lastTime : Int
  systemManager : SysMState
  sceneManager : SMState
  frameTrace : List FrameStep
deriving DecidableEq, Repr

/-- `Engine._tick`: return immediately when not running; otherwise compute
the delta time, emit `preUpdate`, run `SystemManager.update(dt)` (systems
in priority order), `InputManager.update()`, `SceneManager.update(dt)`,
emit `postUpdate`, `RendererManager.render()`, and only then schedule the
next frame via `requestAnimationFrame`. -/
def tick (e : EngineState) (currentTime : Int) : EngineState :=
  if e.isRunning = false then e
  else
    let deltaTime := currentTime - e.lastTime
    let sysResult := updateSys e.systemManager deltaTime
    let sceneAfter := updateScenes e.sceneManager deltaTime
    { isRunning := e.isRunning,
      lastTime := currentTime,
      systemManager := sysResult.1,
      sceneManager := sceneAfter,
      frameTrace :=
        e.frameTrace
          ++ [FrameStep.emitPreUpdate]
          ++ sysResult.2.map (fun sys => FrameStep.systemUpdate sys.name)
          ++ [FrameStep.inputUpdate, FrameStep.sceneManagerUpdate,
              FrameStep.emitPostUpdate, FrameStep.render,
              FrameStep.scheduleNextFrame] }

/-! ### AssetManager (src/systems/assets/AssetManager.ts)

The five `load<Kind>` methods share one textual shape; they differ only in
which cache they use and in that `loadJSON` emits the events
`loaded:${url}` / `error:${url}` on completion while the four
loader-callback variants (`loadTexture`, `loadCubeTexture`, `loadModel`,
`loadAudio`) only resolve/reject a promise that nothing awaits.  The
promise each method returns to its caller subscribes, via
`this.once(...)`, exactly to those two events, so it settles iff a
matching event is later emitted.  Asset payloads are abstracted to `Nat`
handles; timestamps (`Date.now()`) are `Nat` milliseconds supplied by the
environment at each step. -/

/-- The `AssetType` union. -/
inductive AssetType where
  | texture
  | cubeTexture
  | model
  | audio
  | json
deriving DecidableEq, Repr

/-- A load priority class. -/
inductive LoadPriority where
  | high
  | normal
  | low
deriving DecidableEq, Repr

/-- The `AssetCache<T>` record (payload abstracted to a handle). -/
structure AssetCacheEntry where
  asset : Nat
  url : String
  refCount : Int
  lastUsed : Nat
deriving DecidableEq, Repr

/-- A queued unit of work: which url/kind the wrapped closure will fetch
when the scheduler runs it. -/
structure Task where
  url : String
  kind : AssetType
deriving DecidableEq, Repr

/-- An event emitted on the AssetManager (`loaded:${url}` / `error:${url}`). -/
inductive AMEvent where
  | loaded (url : String)
  | error (url : String)
deriving DecidableEq, Repr

/-- Scheduler state of an `AssetManager`: the three priority queues and
the fields `_isLoading`, `_concurrentLoads`, `_maxConcurrentLoads`,
together with the order in which underlying fetches were started (the
observable effect of running a queued closure). -/
structure SchedState where
  highPriorityQueue : List Task
  normalPriorityQueue : List Task
  lowPriorityQueue : List Task
  isLoading : Bool
  concurrentLoads : Nat
  maxConcurrentLoads : Nat
  started : List Task
deriving DecidableEq, Repr

/-- State of an `AssetManager`: the five caches (JS `Map`s as assoc lists
with unique keys), the scheduler fields, and the emitted events.  The
grouping of the queue/concurrency fields into `sched` is an embedding
choice only; the fields are exactly those of the source class. -/
structure AMState where
  textureCache : List (String × AssetCacheEntry)
  cubeTextureCache : List (String × AssetCacheEntry)
  modelCache : List (String × AssetCacheEntry)
  audioCache : List (String × AssetCacheEntry)
  jsonCache : List (String × AssetCacheEntry)
  sched : SchedState
  events : List AMEvent
deriving DecidableEq, Repr

/-- Select the cache for an asset kind (the `switch` in `releaseAsset`,
and the cache each `load<Kind>` uses). -/
def AMState.cacheOf (s : AMState) : AssetType → List (String × AssetCacheEntry)
  | .texture => s.textureCache
  | .cubeTexture => s.cubeTextureCache
  | .model => s.modelCache
  | .audio => s.audioCache
  | .json => s.jsonCache

/-- Replace the cache for an asset kind. -/
def AMState.setCacheOf (s : AMState) : AssetType → List (String × AssetCacheEntry) → AMState
  | .texture, c => { s with textureCache := c }
  | .cubeTexture, c => { s with cubeTextureCache := c }
  | .model, c => { s with modelCache := c }
  | .audio, c => { s with audioCache := c }
  | .json, c => { s with jsonCache := c }

/-- JS `Map.prototype.set`: update in place when the key exists, else
append. -/
def mapSet (l : List (String × AssetCacheEntry)) (k : String) (v : AssetCacheEntry) :
    List (String × AssetCacheEntry) :=
  match l with
  | [] => [(k, v)]
  | (k1, v1) :: rest => if k1 == k then (k, v) :: rest else (k1, v1) :: mapSet rest k v

/-- Total number of queued tasks (termination measure for the scheduler). -/
def queueLen (s : SchedState) : Nat :=
  s.highPriorityQueue.length + s.normalPriorityQueue.length + s.lowPriorityQueue.length

/-- Dequeue from the first non-empty queue: high, then normal, then low
(the `shift()` cascade in `_processQueues`). -/
def shiftNext (s : SchedState) : Option (Task × SchedState) :=
  match s.highPriorityQueue with
  | t :: rest => some (t, { s with highPriorityQueue := rest })
  | [] =>
    match s.normalPriorityQueue with
    | t :: rest => some (t, { s with normalPriorityQueue := rest })
    | [] =>
      match s.lowPriorityQueue with
      | t :: rest => some (t, { s with lowPriorityQueue := rest })
      | [] => none

/-- `nextLoad()` up to its first suspension point: the wrapped closure
increments `_concurrentLoads` and synchronously starts the underlying
fetch (the loader call / `fetch(url)`), then awaits its completion. -/
def runTask (s : SchedState) (t : Task) : SchedState :=
  { s with concurrentLoads := s.concurrentLoads + 1, started := s.started ++ [t] }

/-- `high.length > 0 || normal.length > 0 || low.length > 0`. -/
def hasQueued (s : SchedState) : Bool :=
  !s.highPriorityQueue.isEmpty || !s.normalPriorityQueue.isEmpty || !s.lowPriorityQueue.isEmpty

/-- `_processQueues()`: bail out at the concurrency cap; otherwise set
`_isLoading`, dequeue high-before-normal-before-low, start the dequeued
task, and keep feeding the pipe while there is capacity and queued work;
with nothing dequeued, clear `_isLoading`. -/
def processQueues (s : SchedState) : SchedState :=
  if s.concurrentLoads ≥ s.maxConcurrentLoads then s
  else
    match h : shiftNext { s with isLoading := true } with
    | some (t, s2) =>
      let s3 := runTask s2 t
      if s3.concurrentLoads < s3.maxConcurrentLoads ∧ hasQueued s3 = true then
        processQueues s3
      else s3
    | none => { s with isLoading := false }
termination_by queueLen s
decreasing_by
  simp only [shiftNext] at h
  simp only [runTask, queueLen]
  split at h
  next t1 rest h1 =>
    cases h
    simp [queueLen, h1]
  next h1 =>
    split at h
    next t1 rest h2 =>
      cases h
      simp [queueLen, h2]
    next h2 =>
      split at h
      next t1 rest h3 =>
        cases h
        simp [queueLen, h3]
      next h3 =>
        cases h

/-- `_addToQueue(loadFunc, priority)`: push the wrapped closure onto the
queue for `priority`, then start processing unless already loading. -/
def addToQueue (s : SchedState) (t : Task) (p : LoadPriority) : SchedState :=
  let s1 :=
    match p with
    | .high => { s with highPriorityQueue := s.highPriorityQueue ++ [t] }
    | .normal => { s with normalPriorityQueue := s.normalPriorityQueue ++ [t] }
    | .low => { s with lowPriorityQueue := s.lowPriorityQueue ++ [t] }
  if s1.isLoading = false then processQueues s1 else s1

/-- What a `load<Kind>` call hands back to its caller. -/
inductive LoadReturn where
  | resolvedFromCache (asset : Nat)
  | pendingOnEvents
deriving DecidableEq, Repr

/-- The shared body of the five `load<Kind>(identifier, priority)`
methods: on a cache hit, bump `refCount`, refresh `lastUsed` and return
the cached payload as an already-resolved promise; on a miss, enqueue the
load task and return a promise that settles only when a `loaded:${url}` or
`error:${url}` event is later emitted. -/
def loadAsset (s : AMState) (kind : AssetType) (url : String) (p : LoadPriority)
    (now : Nat) : AMState × LoadReturn :=
  match (s.cacheOf kind).lookup url with
  | some c =>
    (s.setCacheOf kind
       (mapSet (s.cacheOf kind) url { c with refCount := c.refCount + 1, lastUsed := now }),
     .resolvedFromCache c.asset)
  | none => ({ s with sched := addToQueue s.sched ⟨url, kind⟩ p }, .pendingOnEvents)

/-- `loadTexture(url, priority)`. -/
def loadTexture (s : AMState) (url : String) (p : LoadPriority) (now : Nat) :
    AMState × LoadReturn :=
  loadAsset s .texture url p now

/-- `loadCubeTexture(urls, name, priority)` (cached under the synthetic
`name`; the six face urls only parameterise the underlying fetch). -/
def loadCubeTexture (s : AMState) (name : String) (p : LoadPriority) (now : Nat) :
    AMState × LoadReturn :=
  loadAsset s .cubeTexture name p now

/-- `loadModel(url, priority)`. -/
def loadModel (s : AMState) (url : String) (p : LoadPriority) (now : Nat) :
    AMState × LoadReturn :=
  loadAsset s .model url p now

/-- `loadAudio(url, priority)`. -/
def loadAudio (s : AMState) (url : String) (p : LoadPriority) (now : Nat) :
    AMState × LoadReturn :=
  loadAsset s .audio url p now

/-- `loadJSON(url, priority)`. -/
def loadJSON (s : AMState) (url : String) (p : LoadPriority) (now : Nat) :
    AMState × LoadReturn :=
  loadAsset s .json url p now

/-- The `finally` block of the wrapped queue closure: decrement
`_concurrentLoads` and re-run `_processQueues()`. -/
def finallyStep (s : AMState) : AMState :=
  { s with sched :=
      processQueues { s.sched with concurrentLoads := s.sched.concurrentLoads - 1 } }

/-- The underlying fetch of a queued load completes successfully at time
`now`: the success handler stores a fresh cache entry with `refCount: 1`
(`Map.set`, overwriting any entry another concurrent load installed).
Only `loadJSON` then emits `loaded:${url}`; the loader-callback variants
merely resolve the inner promise, which nothing observes.  Afterwards the
wrapped closure runs its `finally` block. -/
def completeLoadSuccess (s : AMState) (kind : AssetType) (url : String) (asset : Nat)
    (now : Nat) : AMState :=
  let s1 := s.setCacheOf kind
    (mapSet (s.cacheOf kind) url { asset := asset, url := url, refCount := 1, lastUsed := now })
  let s2 :=
    if kind = AssetType.json then { s1 with events := s1.events ++ [AMEvent.loaded url] }
    else s1
  finallyStep s2

/-- The underlying fetch fails: the error handler logs and rejects the
inner promise; only `loadJSON` emits `error:${url}`.  Nothing is cached.
The wrapped closure catches the rejection and runs its `finally` block. -/
def completeLoadFailure (s : AMState) (kind : AssetType) (url : String) : AMState :=
  let s1 :=
    if kind = AssetType.json then { s with events := s.events ++ [AMEvent.error url] }
    else s
  finallyStep s1

/-- `releaseAsset(url, type)`: decrement `refCount` in the matching cache
when present (no floor; the entry is never removed here). -/
def releaseAsset (s : AMState) (url : String) (type : AssetType) : AMState :=
  match (s.cacheOf type).lookup url with
  | none => s
  | some c =>
    s.setCacheOf type (mapSet (s.cacheOf type) url { c with refCount := c.refCount - 1 })

/-- The sweep condition of `cleanupUnusedAssets`:
`cached.refCount <= 0 && now - cached.lastUsed > maxAgeMs`. -/
def staleUnused (now maxAgeMs : Nat) (c : AssetCacheEntry) : Bool :=
  c.refCount ≤ 0 ∧ (now : Int) - (c.lastUsed : Int) > (maxAgeMs : Int)

/-- Remove every stale unused entry from one cache. -/
def cleanupCache (now maxAgeMs : Nat) (l : List (String × AssetCacheEntry)) :
    List (String × AssetCacheEntry) :=
  l.filter (fun p => !(staleUnused now maxAgeMs p.2))

/-- `cleanupUnusedAssets(maxAgeMs = 60000)`: for every cache, dispose and
remove each entry with `refCount <= 0` whose age strictly exceeds
`maxAgeMs`. -/
def cleanupUnusedAssets (s : AMState) (maxAgeMs : Nat) (now : Nat) : AMState :=
  { s with
    textureCache := cleanupCache now maxAgeMs s.textureCache,
    cubeTextureCache := cleanupCache now maxAgeMs s.cubeTextureCache,
    modelCache := cleanupCache now maxAgeMs s.modelCache,
    audioCache := cleanupCache now maxAgeMs s.audioCache,
    jsonCache := cleanupCache now maxAgeMs s.jsonCache }

/-- `cloneModel(originalUrl)`: warn and return `null` when not cached;
otherwise clone the scene graph, increment the original entry's
`refCount`, refresh `lastUsed`, and return the clone. -/
def cloneModel (s : AMState) (originalUrl : String) (now : Nat) : AMState × Option Nat :=
  match s.modelCache.lookup originalUrl with
  | none => (s, none)
  | some c =>
    (s.setCacheOf .model
       (mapSet s.modelCache originalUrl { c with refCount := c.refCount + 1, lastUsed := now }),
     some c.asset)

/-- `AssetManager.dispose()`: dispose cached resources, clear all caches
and all queues. -/
def amDispose (s : AMState) : AMState :=
  { s with
    textureCache := [],
    cubeTextureCache := [],
    modelCache := [],
    audioCache := [],
    jsonCache := [],
    sched := { s.sched with
      highPriorityQueue := [], normalPriorityQueue := [], lowPriorityQueue := [] } }

/-- Constructor field initialisers with a configurable concurrency cap
(the source fixes `_maxConcurrentLoads = 4`); the constructor then calls
`_processQueues()` once. -/
def AMInitCap (cap : Nat) : AMState :=
  { textureCache := [], cubeTextureCache := [], modelCache := [],
    audioCache := [], jsonCache := [],
    sched := processQueues
      { highPriorityQueue := [], normalPriorityQueue := [], lowPriorityQueue := [],
        isLoading := false, concurrentLoads := 0, maxConcurrentLoads := cap,
        started := [] },
    events := [] }

/-- A freshly constructed AssetManager (default cap 4). -/
def AMInit : AMState :=
  AMInitCap 4

/-- One step of AssetManager activity: an external call, or the
completion (success or failure) of an in-flight underlying fetch. -/
inductive AMOp where
  | load (kind : AssetType) (url : String) (p : LoadPriority) (now : Nat)
  | completeSuccess (kind : AssetType) (url : String) (asset : Nat) (now : Nat)
  | completeFailure (kind : AssetType) (url : String)
  | release (url : String) (type : AssetType)
  | cleanup (maxAgeMs : Nat) (now : Nat)
  | clone (url : String) (now : Nat)
  | dispose
deriving DecidableEq, Repr

/-- Interpret one AssetManager step. -/
def AMStep (s : AMState) : AMOp → AMState
  | .load kind url p now => (loadAsset s kind url p now).1
  | .completeSuccess kind url asset now => completeLoadSuccess s kind url asset now
  | .completeFailure kind url => completeLoadFailure s kind url
  | .release url type => releaseAsset s url type
  | .cleanup maxAgeMs now => cleanupUnusedAssets s maxAgeMs now
  | .clone url now => (cloneModel s url now).1
  | .dispose => amDispose s

/-- Interpret a sequence of AssetManager steps. -/
def AMRun (s : AMState) : List AMOp → AMState
  | [] => s
  | op :: ops => AMRun (AMStep s op) ops

/-- Number of `releaseAsset` calls in a step sequence. -/
def releaseCount : List AMOp → Nat
  | [] => 0
  | AMOp.release _ _ :: ops => releaseCount ops + 1
  | _ :: ops => releaseCount ops

/-- The SceneManager consistency property: a non-null `_activeSceneId`
always refers to a registered scene. -/
def activeRegistered (s : SMState) : Prop :=
  ∀ i, s.activeSceneId = some i → (s.scenes.lookup i).isSome = true

/-- Every entry of every asset cache has `refCount` at least `b`. -/
def refBounded (s : AMState) (b : Int) : Prop :=
  ∀ kind : AssetType, ∀ p ∈ s.cacheOf kind, b ≤ p.2.refCount

/-- Test fixture: an AssetManager state holding exactly one texture cache
entry for `a.png` with the given refCount and lastUsed, an idle
scheduler and no events. -/
def singleTextureState (rc : Int) (lastUsed : Nat) : AMState :=
  { textureCache :=
      [("a.png", { asset := 7, url := "a.png", refCount := rc, lastUsed := lastUsed })],
    cubeTextureCache := [], modelCache := [], audioCache := [], jsonCache := [],
    sched := { highPriorityQueue := [], normalPriorityQueue := [], lowPriorityQueue := [],
               isLoading := false, concurrentLoads := 0, maxConcurrentLoads := 4,
               started := [] },
    events := [] }

/-- Test fixture for the queue-ordering scenario of the spec: concurrency
cap 1, three low-priority texture loads enqueued, then one high-priority
load. -/
def lowLowLowHigh : AMState :=
  (loadTexture (loadTexture (loadTexture (loadTexture (AMInitCap 1)
      "l1" LoadPriority.low 0).1 "l2" LoadPriority.low 0).1
      "l3" LoadPriority.low 0).1 "h" LoadPriority.high 0).1

/-- Test fixture: two `loadTexture` calls for the same url, the second
made before the first resolves. -/
def twoTexLoads (t0 t1 : Nat) : AMState :=
  (loadTexture (loadTexture AMInit "a.png" LoadPriority.normal t0).1
      "a.png" LoadPriority.normal t1).1

/-! ## Helper lemmas -/

theorem lookup_append_of_isSome {α β : Type} [BEq α] {l : List (α × β)} (l2 : List (α × β))
    {k : α} (h : (l.lookup k).isSome = true) : (l ++ l2).lookup k = l.lookup k := by
  induction l with
  | nil => simp [List.lookup] at h
  | cons p t ih =>
    cases p with
    | mk a b =>
      cases hk : k == a with
      | true => simp [List.lookup, hk]
      | false =>
        simp only [List.lookup, hk] at h
        simp [List.lookup, hk, ih h]

theorem lookup_eraseP_ne {β : Type} {l : List (String × β)} {i id : String} (h : i ≠ id) :
    (l.eraseP (fun p => p.1 == id)).lookup i = l.lookup i := by
  induction l with
  | nil => simp
  | cons p t ih =>
    cases p with
    | mk a b =>
      by_cases ha : a = id
      · subst ha
        have hk : (i == a) = false := by simp [h]
        simp [List.eraseP, List.lookup, hk]
      · have hk : (a == id) = false := by simp [ha]
        simp only [List.eraseP, hk]
        simp [List.lookup, ih]

theorem lookup_mem {α β : Type} [BEq α] [LawfulBEq α] {l : List (α × β)} {k : α} {v : β}
    (h : l.lookup k = some v) : (k, v) ∈ l := by
  induction l with
  | nil => simp [List.lookup] at h
  | cons p t ih =>
    cases p with
    | mk a b =>
      cases hk : k == a with
      | true =>
        simp only [List.lookup, hk] at h
        cases h
        have : k = a := by exact eq_of_beq hk
        subst this
        exact List.mem_cons_self _ _
      | false =>
        simp only [List.lookup, hk] at h
        exact List.mem_cons_of_mem _ (ih h)

theorem mem_mapSet {l : List (String × AssetCacheEntry)} {k : String} {v : AssetCacheEntry}
    {p : String × AssetCacheEntry} (h : p ∈ mapSet l k v) : p = (k, v) ∨ p ∈ l := by
  induction l with
  | nil => simpa [mapSet] using h
  | cons q t ih =>
    cases q with
    | mk a b =>
      by_cases ha : (a == k) = true
      · simp only [mapSet, ha, if_pos] at h
        rcases List.mem_cons.mp h with h1 | h1
        · exact Or.inl h1
        · exact Or.inr (List.mem_cons_of_mem _ h1)
      · simp only [mapSet, ha] at h
        rcases List.mem_cons.mp h with h1 | h1
        · exact Or.inr (by simp [h1])
        · rcases ih h1 with h2 | h2
          · exact Or.inl h2
          · exact Or.inr (List.mem_cons_of_mem _ h2)

theorem lookup_mapSet_self (l : List (String × AssetCacheEntry)) (k : String)
    (v : AssetCacheEntry) : (mapSet l k v).lookup k = some v := by
  induction l with
  | nil => simp [mapSet, List.lookup]
  | cons q t ih =>
    cases q with
    | mk a b =>
      by_cases ha : a = k
      · subst ha
        simp [mapSet, List.lookup]
      · have h1 : (a == k) = false := beq_eq_false_iff_ne.mpr ha
        have h2 : (k == a) = false := beq_eq_false_iff_ne.mpr (fun he => ha he.symm)
        simp [mapSet, h1, List.lookup, h2, ih]

theorem activateScene_none_fields (s : SMState) :
    (activateScene s none).scenes = s.scenes ∧
    (activateScene s none).activeSceneId = none := by
  cases hA : s.activeSceneId with
  | none => simp [activateScene, hA]
  | some cur =>
    cases hc : s.scenes.lookup cur with
    | none => simp [activateScene, hA, hc]
    | some scc => simp [activateScene, hA, hc]

theorem activateScene_found_fields {s : SMState} {i : String} {sc : GameScene}
    (hl : s.scenes.lookup i = some sc) :
    (activateScene s (some i)).scenes = s.scenes ∧
    (activateScene s (some i)).activeSceneId = some i := by
  cases hA : s.activeSceneId with
  | none => simp [activateScene, hA, hl]
  | some cur =>
    cases hc : s.scenes.lookup cur with
    | none => simp [activateScene, hA, hc, hl]
    | some scc => simp [activateScene, hA, hc, hl]

theorem activateScene_notFound_fields {s : SMState} {i : String}
    (hl : s.scenes.lookup i = none) :
    (activateScene s (some i)).scenes = s.scenes ∧
    (activateScene s (some i)).activeSceneId = s.activeSceneId := by
  cases hA : s.activeSceneId with
  | none => simp [activateScene, hA, hl]
  | some cur =>
    cases hc : s.scenes.lookup cur with
    | none => simp [activateScene, hA, hc, hl]
    | some scc => simp [activateScene, hA, hc, hl]

/-! ## SceneManager claims -/

theorem activeRegistered_SMStep {s : SMState} (h : activeRegistered s) (op : SMOp) :
    activeRegistered (SMStep s op) := by
  cases op with
  | register id sc =>
    by_cases hc : (s.scenes.lookup id).isSome = true
    · simpa [SMStep, registerScene, hc] using h
    · intro i hi
      simp only [SMStep, registerScene, hc, if_false, Bool.false_eq_true] at hi ⊢
      have hi2 : s.activeSceneId = some i := hi
      rw [lookup_append_of_isSome _ (h i hi2)]
      exact h i hi2
  | unregister id =>
    cases hl : s.scenes.lookup id with
    | none => simpa [SMStep, unregisterScene, hl] using h
    | some sc =>
      by_cases ha : s.activeSceneId = some id
      · intro i hi
        obtain ⟨hsc, hid⟩ := activateScene_none_fields s
        simp only [SMStep, unregisterScene, hl, ha, if_pos] at hi
        rw [hid] at hi
        cases hi
      · intro i hi
        simp only [SMStep, unregisterScene, hl, ha, if_neg, ite_false] at hi ⊢
        have hi2 : s.activeSceneId = some i := hi
        have hii : i ≠ id := by
          intro he
          exact ha (he ▸ hi2)
        rw [lookup_eraseP_ne hii]
        exact h i hi2
  | activate oid =>
    intro i hi
    simp only [SMStep] at hi ⊢
    cases oid with
    | none =>
      obtain ⟨hsc, hid⟩ := activateScene_none_fields s
      rw [hid] at hi
      cases hi
    | some i0 =>
      cases hl0 : s.scenes.lookup i0 with
      | none =>
        obtain ⟨hsc, hid⟩ := activateScene_notFound_fields hl0
        rw [hid] at hi
        rw [hsc]
        exact h i hi
      | some sc0 =>
        obtain ⟨hsc, hid⟩ := activateScene_found_fields hl0
        rw [hid] at hi
        rw [hsc]
        cases hi
        simp [hl0]
  | update dt =>
    intro i hi
    cases hA : s.activeSceneId with
    | none =>
      simp only [SMStep, updateScenes, hA] at hi
      cases hi
    | some cur =>
      cases hl : s.scenes.lookup cur with
      | none =>
        simp only [SMStep, updateScenes, hA, hl] at hi ⊢
        cases hi
        exact h _ hA
      | some sc =>
        simp only [SMStep, updateScenes, hA, hl] at hi ⊢
        cases hi
        exact h _ hA
  | handleResize w hh =>
    intro i hi
    cases hA : s.activeSceneId with
    | none =>
      simp only [SMStep, smHandleResize, hA] at hi
      cases hi
    | some cur =>
      cases hl : s.scenes.lookup cur with
      | none =>
        simp only [SMStep, smHandleResize, hA, hl] at hi ⊢
        cases hi
        exact h _ hA
      | some sc =>
        by_cases hr : sc.hasHandleResize = true
        · simp only [SMStep, smHandleResize, hA, hl, hr, if_pos] at hi ⊢
          cases hi
          exact h _ hA
        · simp only [SMStep, smHandleResize, hA, hl, hr, ite_false] at hi ⊢
          cases hi
          exact h _ hA
  | dispose =>
    intro i hi
    simp [SMStep, smDispose] at hi

theorem activeRegistered_SMRun {s : SMState} (h : activeRegistered s) (ops : List SMOp) :
    activeRegistered (SMRun s ops) := by
  induction ops generalizing s with
  | nil => exact h
  | cons op t ih => exact ih (activeRegistered_SMStep h op)

/-- Claim C9: after any sequence of SceneManager operations starting from
a fresh manager, whenever the active scene id is non-null it refers to a
scene currently present in the registry. -/
theorem sceneManager_active_id_always_registered (ops : List SMOp) (i : String)
    (h : (SMRun SMInit ops).activeSceneId = some i) :
    ((SMRun SMInit ops).scenes.lookup i).isSome = true := by
  have h0 : activeRegistered SMInit := by
    intro j hj
    simp [SMInit] at hj
  exact activeRegistered_SMRun h0 ops i h

/-- Witness for C9 at a concrete run: register scene `a`, activate it,
register scene `b`, unregister `b`; the active id `a` is still registered. -/
theorem sceneManager_active_id_always_registered_witness :
    (SMRun SMInit [SMOp.register "a" ⟨false⟩, SMOp.activate (some "a"),
        SMOp.register "b" ⟨true⟩, SMOp.unregister "b"]).activeSceneId = some "a" ∧
    ((SMRun SMInit [SMOp.register "a" ⟨false⟩, SMOp.activate (some "a"),
        SMOp.register "b" ⟨true⟩, SMOp.unregister "b"]).scenes.lookup "a").isSome = true :=
  ⟨by decide,
   sceneManager_active_id_always_registered
     [SMOp.register "a" ⟨false⟩, SMOp.activate (some "a"),
      SMOp.register "b" ⟨true⟩, SMOp.unregister "b"] "a" (by decide)⟩

/-- Claim C2, counterexample: after `activateScene("x")` then
`activateScene("missing")`, scene `x` does receive exactly one
deactivation call, but `activeScene` does NOT return null: the failed
activation leaves the stale `_activeSceneId = "x"` in place, so
`activeScene` still returns scene `x`. -/
theorem sceneManager_missing_activation_counterexample :
    ((SMRun SMInit [SMOp.register "x" ⟨false⟩, SMOp.activate (some "x"),
        SMOp.activate (some "missing")]).calls.filter
          (fun c => c = SceneCall.onDeactivate "x")).length = 1 ∧
    activeScene (SMRun SMInit [SMOp.register "x" ⟨false⟩, SMOp.activate (some "x"),
        SMOp.activate (some "missing")]) = some ⟨false⟩ := by
  constructor
  · decide
  · decide

/-- Claim C2, amended: activating an unregistered id while scene `x` is
active calls `x`'s deactivation hook exactly once (with its
notification), but leaves the active id pointing at `x`; afterwards
`activeScene` still returns the (now deactivated) scene `x`, not
null/none. -/
theorem activateScene_unknown_id_keeps_previous_active (s : SMState) (x m : String)
    (sc : GameScene) (hA : s.activeSceneId = some x) (hx : s.scenes.lookup x = some sc)
    (hm : s.scenes.lookup m = none) :
    (activateScene s (some m)).calls
      = s.calls ++ [SceneCall.onDeactivate x, SceneCall.emitSceneDeactivated x] ∧
    (activateScene s (some m)).activeSceneId = some x ∧
    (activateScene s (some m)).scenes = s.scenes ∧
    activeScene (activateScene s (some m)) = some sc := by
  refine ⟨?_, ?_, ?_, ?_⟩ <;> simp [activateScene, activeScene, hA, hx, hm]

/-- Witness for the amended C2 theorem at the concrete run from the
claim: register and activate scene `x`, then activate `missing`. -/
theorem activateScene_unknown_id_keeps_previous_active_witness :
    (activateScene (SMRun SMInit [SMOp.register "x" ⟨false⟩, SMOp.activate (some "x")])
        (some "missing")).activeSceneId = some "x" ∧
    activeScene (activateScene
        (SMRun SMInit [SMOp.register "x" ⟨false⟩, SMOp.activate (some "x")])
        (some "missing")) = some ⟨false⟩ := by
  have h := activateScene_unknown_id_keeps_previous_active
    (SMRun SMInit [SMOp.register "x" ⟨false⟩, SMOp.activate (some "x")])
    "x" "missing" ⟨false⟩ (by decide) (by decide) (by decide)
  exact ⟨h.2.1, h.2.2.2⟩

/-- Claim C10: calling `activateScene` with the id of the already active
scene invokes that scene's `onDeactivate` hook once (with the
deactivation notification) and then its `onActivate` hook once (with the
activation notification), and the scene remains the active scene. -/
theorem activateScene_active_id_reactivates (s : SMState) (x : String) (sc : GameScene)
    (hA : s.activeSceneId = some x) (hx : s.scenes.lookup x = some sc) :
    (activateScene s (some x)).calls
      = s.calls ++ [SceneCall.onDeactivate x, SceneCall.emitSceneDeactivated x,
                    SceneCall.onActivate x, SceneCall.emitSceneActivated x] ∧
    (activateScene s (some x)).activeSceneId = some x ∧
    (activateScene s (some x)).scenes = s.scenes := by
  refine ⟨?_, ?_, ?_⟩ <;> simp [activateScene, hA, hx]

/-- Witness for C10 at a concrete run: register and activate `x`, then
activate `x` again. -/
theorem activateScene_active_id_reactivates_witness :
    (activateScene (SMRun SMInit [SMOp.register "x" ⟨true⟩, SMOp.activate (some "x")])
        (some "x")).calls
      = [SceneCall.onActivate "x", SceneCall.emitSceneActivated "x",
         SceneCall.onDeactivate "x", SceneCall.emitSceneDeactivated "x",
         SceneCall.onActivate "x", SceneCall.emitSceneActivated "x"] ∧
    (activateScene (SMRun SMInit [SMOp.register "x" ⟨true⟩, SMOp.activate (some "x")])
        (some "x")).activeSceneId = some "x" := by
  have h := activateScene_active_id_reactivates
    (SMRun SMInit [SMOp.register "x" ⟨true⟩, SMOp.activate (some "x")])
    "x" ⟨true⟩ (by decide) (by decide)
  refine ⟨?_, h.2.1⟩
  rw [h.1]
  decide

/-! ## SystemManager claims -/

theorem registerAll_systems_aux (l : List System) (s : SysMState)
    (h : ((s.systems ++ l).map System.name).Nodup) :
    (l.foldl registerSystem s).systems = s.systems ++ l := by
  induction l generalizing s with
  | nil => simp
  | cons sys t ih =>
    have hnotin : sys.name ∉ s.systems.map System.name := by
      intro hmem
      rw [List.map_append] at h
      rcases List.nodup_append.mp h with ⟨h1, h2, hdisj⟩
      exact hdisj hmem (by simp)
    have hany : s.systems.any (fun x => x.name == sys.name) = false := by
      rw [List.any_eq_false]
      intro x hx hpx
      have hx2 : x.name = sys.name := eq_of_beq hpx
      exact hnotin (hx2 ▸ List.mem_map_of_mem System.name hx)
    have hstep : registerSystem s sys
        = { s with systems := s.systems ++ [sys], needsSort := true } := by
      simp [registerSystem, hany]
    rw [List.foldl_cons, hstep]
    rw [ih { s with systems := s.systems ++ [sys], needsSort := true }
        (by simpa [List.append_assoc] using h)]
    simp

theorem registerAll_sorted_inv (l : List System) (s : SysMState)
    (h : s.needsSort = false → s.sortedSystems = sortSystems s.systems) :
    (l.foldl registerSystem s).needsSort = false →
      (l.foldl registerSystem s).sortedSystems
        = sortSystems (l.foldl registerSystem s).systems := by
  induction l generalizing s with
  | nil => exact h
  | cons sys t ih =>
    rw [List.foldl_cons]
    apply ih
    by_cases hany : s.systems.any (fun x => x.name == sys.name) = true
    · simpa [registerSystem, hany] using h
    · intro hns
      exfalso
      have hany2 : (s.systems.any fun x => x.name == sys.name) = false := by
        revert hany
        cases s.systems.any fun x => x.name == sys.name <;> simp
      rw [registerSystem, if_neg (by simp [hany2])] at hns
      simp at hns

theorem updateSys_registerAll (l : List System) (dt : Int)
    (h : (l.map System.name).Nodup) :
    (updateSys (registerAll l) dt).2 = (sortSystems l).filter (fun x => x.isEnabled) := by
  have hsys : (registerAll l).systems = l := by
    have := registerAll_systems_aux l SysMInit (by simpa [SysMInit] using h)
    simpa [registerAll, SysMInit] using this
  have hinv := registerAll_sorted_inv l SysMInit (by intro _; rfl)
  unfold updateSys
  by_cases hns : (registerAll l).needsSort = true
  · simp [hns, hsys]
  · have hns2 : (registerAll l).needsSort = false := by
      revert hns
      cases (registerAll l).needsSort <;> simp
    have hcached : (registerAll l).sortedSystems = sortSystems (registerAll l).systems :=
      hinv hns2
    rw [hsys] at hcached
    simp [hns2, hcached]

theorem filter_sortSystems_of_const (q : System → Bool)
    (hq : ∀ x y, q x = true → q y = true → sysLe x y) (l : List System) :
    (sortSystems l).filter q = l.filter q := by
  have hpair : (l.filter q).Pairwise sysLe := by
    apply List.pairwise_of_forall_mem_list
    intro a ha b hb
    exact hq a b (List.of_mem_filter ha) (List.of_mem_filter hb)
  have hsub : List.Sublist (l.filter q) (sortSystems l) :=
    List.sublist_insertionSort hpair (List.filter_sublist l)
  have hsub2 : List.Sublist (l.filter q) ((sortSystems l).filter q) := by
    have h2 := hsub.filter q
    simpa [List.filter_filter, Bool.and_self] using h2
  have hperm : List.Perm ((sortSystems l).filter q) (l.filter q) :=
    (List.perm_insertionSort sysLe l).filter q
  exact (hsub2.eq_of_length hperm.length_eq.symm).symm

/-- Claim C4: `SystemManager.update(dt)` calls `update` on every enabled
registered system in descending priority order, and for systems of equal
priority the registration order is preserved (stable sort): the call
sequence is sorted by `sysLe`, and for every priority level the called
systems of that level are exactly the enabled registered ones of that
level in registration order; with priorities [5, 10, 5] registered as
A, B, C the observed call order is B, A, C. -/
theorem systemManager_update_priority_order :
    (∀ (l : List System) (dt : Int), (l.map System.name).Nodup →
        ((updateSys (registerAll l) dt).2.Pairwise sysLe ∧
         ∀ p : Int, (updateSys (registerAll l) dt).2.filter (fun x => x.priority == p)
           = l.filter (fun x => x.isEnabled && x.priority == p))) ∧
    ((updateSys (registerAll
        [⟨"A", 5, true⟩, ⟨"B", 10, true⟩, ⟨"C", 5, true⟩]) 16).2.map System.name
      = ["B", "A", "C"]) := by
  constructor
  · intro l dt h
    rw [updateSys_registerAll l dt h]
    constructor
    · have hs : List.Sorted sysLe ((sortSystems l).filter (fun x => x.isEnabled)) :=
        (List.sorted_insertionSort sysLe l).filter (fun x => x.isEnabled)
      exact hs
    · intro p
      have hstab := filter_sortSystems_of_const
        (fun a => a.priority == p && a.isEnabled)
        (by
          intro x y hx hy
          simp only [Bool.and_eq_true, beq_iff_eq] at hx hy
          unfold sysLe
          rw [hx.1, hy.1]) l
      rw [List.filter_filter, hstab]
      apply List.filter_congr
      intro x hx
      exact Bool.and_comm _ _
  · decide

/-- Witness for C4 at the concrete scenario of the claim: three systems
A, B, C with priorities 5, 10, 5. -/
theorem systemManager_update_priority_order_witness :
    ((updateSys (registerAll
        [⟨"A", 5, true⟩, ⟨"B", 10, true⟩, ⟨"C", 5, true⟩]) 16).2.Pairwise sysLe ∧
     ∀ p : Int, (updateSys (registerAll
        [⟨"A", 5, true⟩, ⟨"B", 10, true⟩, ⟨"C", 5, true⟩]) 16).2.filter
          (fun x => x.priority == p)
       = [⟨"A", 5, true⟩, ⟨"B", 10, true⟩, ⟨"C", 5, true⟩].filter
           (fun x => x.isEnabled && x.priority == p)) :=
  systemManager_update_priority_order.1
    [⟨"A", 5, true⟩, ⟨"B", 10, true⟩, ⟨"C", 5, true⟩] 16 (by decide)

/-! ## Engine frame-loop claim -/

/-- Claim C8: within one frame tick of a running engine the steps occur
in exactly this order: pre-update notification, then
`SystemManager.update(dt)` (the priority-ordered system updates), then
`InputManager.update()`, then `SceneManager.update(dt)`, then the
post-update notification, then `RendererManager.render()`, and only then
is the next frame scheduled. -/
theorem engine_tick_step_order (e : EngineState) (t : Int) (h : e.isRunning = true) :
    (tick e t).frameTrace
      = e.frameTrace ++ [FrameStep.emitPreUpdate]
          ++ (updateSys e.systemManager (t - e.lastTime)).2.map
               (fun sys => FrameStep.systemUpdate sys.name)
          ++ [FrameStep.inputUpdate, FrameStep.sceneManagerUpdate,
              FrameStep.emitPostUpdate, FrameStep.render,
              FrameStep.scheduleNextFrame] := by
  simp [tick, h]

/-- Witness for C8: a running engine with one registered enabled system. -/
theorem engine_tick_step_order_witness :
    (tick { isRunning := true, lastTime := 0,
            systemManager := registerAll [⟨"physics", 3, true⟩],
            sceneManager := SMInit, frameTrace := [] } 16).frameTrace
      = [FrameStep.emitPreUpdate, FrameStep.systemUpdate "physics",
         FrameStep.inputUpdate, FrameStep.sceneManagerUpdate,
         FrameStep.emitPostUpdate, FrameStep.render,
         FrameStep.scheduleNextFrame] := by
  rw [engine_tick_step_order
    { isRunning := true, lastTime := 0,
      systemManager := registerAll [⟨"physics", 3, true⟩],
      sceneManager := SMInit, frameTrace := [] } 16 rfl]
  decide

/-! ## AssetManager claims -/

@[simp]
theorem cacheOf_withSched (s : AMState) (sc : SchedState) (kind : AssetType) :
    (AMState.cacheOf { s with sched := sc } kind) = s.cacheOf kind := by
  cases kind <;> rfl

@[simp]
theorem cacheOf_withEvents (s : AMState) (ev : List AMEvent) (kind : AssetType) :
    (AMState.cacheOf { s with events := ev } kind) = s.cacheOf kind := by
  cases kind <;> rfl

theorem cacheOf_setCacheOf (s : AMState) (k k2 : AssetType)
    (c : List (String × AssetCacheEntry)) :
    (s.setCacheOf k c).cacheOf k2 = if k2 = k then c else s.cacheOf k2 := by
  cases k <;> cases k2 <;> simp [AMState.setCacheOf, AMState.cacheOf]

@[simp]
theorem events_setCacheOf (s : AMState) (k : AssetType)
    (c : List (String × AssetCacheEntry)) : (s.setCacheOf k c).events = s.events := by
  cases k <;> rfl

@[simp]
theorem sched_setCacheOf (s : AMState) (k : AssetType)
    (c : List (String × AssetCacheEntry)) : (s.setCacheOf k c).sched = s.sched := by
  cases k <;> rfl

@[simp]
theorem events_finallyStep (s : AMState) : (finallyStep s).events = s.events :=
  rfl

@[simp]
theorem cacheOf_finallyStep (s : AMState) (kind : AssetType) :
    (finallyStep s).cacheOf kind = s.cacheOf kind := by
  cases kind <;> rfl

/-- Claim C1 (code bug): on a successful texture fetch the cache entry
with refCount 1 is inserted, but no `loaded:`/`error:` event is ever
emitted for the loader-callback asset kinds, so the promise
`loadTexture` returned (which resolves only on those events) never
settles for any waiter; only `loadJSON` emits the events its returned
promise waits for.  Evaluated at the failing input
`loadTexture("a.png")` on an empty cache with a successful fetch. -/
theorem loadTexture_success_caches_but_never_resolves_waiters :
    (loadTexture AMInit "a.png" LoadPriority.normal 0).2 = LoadReturn.pendingOnEvents ∧
    (completeLoadSuccess (loadTexture AMInit "a.png" LoadPriority.normal 0).1
        AssetType.texture "a.png" 7 5).textureCache
      = [("a.png", { asset := 7, url := "a.png", refCount := 1, lastUsed := 5 })] ∧
    (completeLoadSuccess (loadTexture AMInit "a.png" LoadPriority.normal 0).1
        AssetType.texture "a.png" 7 5).events = [] ∧
    (completeLoadFailure (loadTexture AMInit "a.png" LoadPriority.normal 0).1
        AssetType.texture "a.png").events = [] ∧
    (completeLoadSuccess (loadJSON AMInit "b.json" LoadPriority.normal 0).1
        AssetType.json "b.json" 9 5).events = [AMEvent.loaded "b.json"] := by
  refine ⟨rfl, ?_, rfl, rfl, rfl⟩
  rfl

/-- Claim C3, counterexample: after two concurrent `loadTexture("a.png")`
calls and both underlying completions, the single cache entry has
refCount 1 (the second completion overwrote the first entry), not 2 as
claimed. -/
theorem concurrent_loadTexture_refCount_counterexample :
    (completeLoadSuccess (completeLoadSuccess (twoTexLoads 0 1)
        AssetType.texture "a.png" 10 20) AssetType.texture "a.png" 11 30).textureCache.lookup
        "a.png"
      = some { asset := 11, url := "a.png", refCount := 1, lastUsed := 30 } ∧
    Option.map (fun e => e.refCount)
      ((completeLoadSuccess (completeLoadSuccess (twoTexLoads 0 1)
          AssetType.texture "a.png" 10 20) AssetType.texture "a.png" 11 30).textureCache.lookup
          "a.png") ≠ some 2 := by
  constructor
  · rfl
  · decide

/-- Claim C3, amended: a second concurrent `loadTexture` for the same
uncached url is not deduplicated — it becomes its own queue entry and its
own underlying fetch (which the scheduler starts once the first fetch
completes) — and after both completions the cache holds one entry for the
key whose refCount is 1 (each success handler installs a fresh entry with
refCount 1; the second overwrites the first) and whose lastUsed is the
second completion's timestamp. -/
theorem concurrent_loadTexture_second_overwrites (t0 t1 a1 a2 n1 n2 : Nat) :
    ((completeLoadSuccess (completeLoadSuccess (twoTexLoads t0 t1)
        AssetType.texture "a.png" a1 n1) AssetType.texture "a.png" a2 n2).textureCache.lookup
        "a.png"
      = some { asset := a2, url := "a.png", refCount := 1, lastUsed := n2 }) ∧
    ((completeLoadSuccess (twoTexLoads t0 t1) AssetType.texture "a.png" a1 n1).sched.started
      = [{ url := "a.png", kind := AssetType.texture },
         { url := "a.png", kind := AssetType.texture }]) := by
  constructor
  · simp [twoTexLoads, loadTexture, loadAsset, completeLoadSuccess, finallyStep,
          AMState.cacheOf, AMState.setCacheOf, mapSet, List.lookup, AMInit, AMInitCap,
          addToQueue, processQueues, shiftNext, runTask, hasQueued]
  · simp [twoTexLoads, loadTexture, loadAsset, completeLoadSuccess, finallyStep,
          AMState.cacheOf, AMState.setCacheOf, mapSet, List.lookup, AMInit, AMInitCap,
          addToQueue, processQueues, shiftNext, runTask, hasQueued]

/-- Claim C5, counterexample: with the concurrency cap at 1, enqueuing
three low-priority loads and then one high-priority load leaves exactly
the FIRST low-priority fetch started (it started synchronously inside its
own enqueue, before the high-priority load existed); the high-priority
fetch has not started, refuting that it starts before any low-priority
fetch. -/
theorem high_priority_after_first_low_counterexample :
    lowLowLowHigh.sched.started = [{ url := "l1", kind := AssetType.texture }] ∧
    ({ url := "h", kind := AssetType.texture } : Task) ∉ lowLowLowHigh.sched.started := by
  have h1 : lowLowLowHigh.sched.started = [{ url := "l1", kind := AssetType.texture }] := by
    simp [lowLowLowHigh, loadTexture, loadAsset, AMState.cacheOf, AMInitCap,
          addToQueue, processQueues, shiftNext, runTask, hasQueued, List.lookup]
  refine ⟨h1, ?_⟩
  rw [h1]
  decide

/-- Claim C5, amended: with cap 1 the first low-priority fetch starts
synchronously when enqueued; once it completes, the high-priority fetch
starts next, ahead of the remaining (second and third) low-priority
fetches, and the full fetch-start order is l1, h, l2, l3. -/
theorem high_priority_starts_ahead_of_remaining_lows :
    lowLowLowHigh.sched.started = [{ url := "l1", kind := AssetType.texture }] ∧
    (completeLoadSuccess lowLowLowHigh AssetType.texture "l1" 1 10).sched.started
      = [{ url := "l1", kind := AssetType.texture },
         { url := "h", kind := AssetType.texture }] ∧
    (completeLoadSuccess (completeLoadSuccess lowLowLowHigh AssetType.texture "l1" 1 10)
        AssetType.texture "h" 2 11).sched.started
      = [{ url := "l1", kind := AssetType.texture },
         { url := "h", kind := AssetType.texture },
         { url := "l2", kind := AssetType.texture }] ∧
    (completeLoadSuccess (completeLoadSuccess (completeLoadSuccess lowLowLowHigh
        AssetType.texture "l1" 1 10) AssetType.texture "h" 2 11)
        AssetType.texture "l2" 3 12).sched.started
      = [{ url := "l1", kind := AssetType.texture },
         { url := "h", kind := AssetType.texture },
         { url := "l2", kind := AssetType.texture },
         { url := "l3", kind := AssetType.texture }] := by
  refine ⟨?_, ?_, ?_, ?_⟩ <;>
    simp [lowLowLowHigh, loadTexture, loadAsset, completeLoadSuccess, finallyStep,
          AMState.cacheOf, AMState.setCacheOf, mapSet, AMInitCap,
          addToQueue, processQueues, shiftNext, runTask, hasQueued, List.lookup]

theorem cacheOf_cleanupUnusedAssets (s : AMState) (maxAgeMs now : Nat) (kind : AssetType) :
    (cleanupUnusedAssets s maxAgeMs now).cacheOf kind
      = cleanupCache now maxAgeMs (s.cacheOf kind) := by
  cases kind <;> rfl

theorem cacheOf_amDispose (s : AMState) (kind : AssetType) :
    (amDispose s).cacheOf kind = [] := by
  cases kind <;> rfl

/-- Claim C6, counterexample: `releaseAsset` brings the entry's refCount
to 0, but `cleanupUnusedAssets(0)` invoked at the very timestamp of the
entry's last use does NOT free it: the sweep requires
`now - lastUsed > maxAgeMs` strictly, and 5 - 5 = 0 is not > 0. -/
theorem cleanup_zero_age_same_timestamp_counterexample :
    (releaseAsset (singleTextureState 1 5) "a.png" AssetType.texture).textureCache.lookup
        "a.png"
      = some { asset := 7, url := "a.png", refCount := 0, lastUsed := 5 } ∧
    (cleanupUnusedAssets (releaseAsset (singleTextureState 1 5) "a.png" AssetType.texture)
        0 5).textureCache.lookup "a.png"
      = some { asset := 7, url := "a.png", refCount := 0, lastUsed := 5 } := by
  constructor <;> rfl

/-- Claim C6, amended: `cleanupUnusedAssets(maxAgeMs)` frees an entry
with refCount ≤ 0 exactly when strictly more than `maxAgeMs` has elapsed
since its last use (so `cleanupUnusedAssets(0)` frees a released entry as
soon as any positive time has passed, but not at the same timestamp);
and an entry with refCount > 0 is never freed, regardless of its age and
of `maxAgeMs`. -/
theorem cleanup_spares_referenced_and_frees_stale (s : AMState) (maxAgeMs now : Nat)
    (kind : AssetType) (p : String × AssetCacheEntry) :
    (p ∈ s.cacheOf kind → p.2.refCount ≤ 0 →
        (now : Int) - (p.2.lastUsed : Int) > (maxAgeMs : Int) →
        p ∉ (cleanupUnusedAssets s maxAgeMs now).cacheOf kind) ∧
    (p ∈ s.cacheOf kind → 0 < p.2.refCount →
        p ∈ (cleanupUnusedAssets s maxAgeMs now).cacheOf kind) := by
  constructor
  · intro hp h1 h2 hmem
    rw [cacheOf_cleanupUnusedAssets] at hmem
    rcases List.mem_filter.mp hmem with ⟨_, hcond⟩
    have hstale : staleUnused now maxAgeMs p.2 = true := by
      simp only [staleUnused, decide_eq_true_eq]
      exact ⟨h1, h2⟩
    rw [hstale] at hcond
    simp at hcond
  · intro hp h1
    rw [cacheOf_cleanupUnusedAssets]
    apply List.mem_filter.mpr
    refine ⟨hp, ?_⟩
    have hstale : staleUnused now maxAgeMs p.2 = false := by
      simp only [staleUnused, decide_eq_false_iff_not]
      rintro ⟨hle, _⟩
      omega
    simp [hstale]

/-- Witness for the amended C6 theorem: a released entry (refCount 0,
lastUsed 5) is freed by `cleanupUnusedAssets(0)` at now = 6; a referenced
entry (refCount 1) survives a sweep with maxAgeMs = 0 even at
now = 1000000. -/
theorem cleanup_spares_referenced_and_frees_stale_witness :
    (("a.png", { asset := 7, url := "a.png", refCount := 0, lastUsed := 5 })
        ∉ (cleanupUnusedAssets (singleTextureState 0 5) 0 6).cacheOf AssetType.texture) ∧
    (("a.png", { asset := 7, url := "a.png", refCount := 1, lastUsed := 5 })
        ∈ (cleanupUnusedAssets (singleTextureState 1 5) 0 1000000).cacheOf
            AssetType.texture) :=
  ⟨(cleanup_spares_referenced_and_frees_stale (singleTextureState 0 5) 0 6
      AssetType.texture ("a.png", { asset := 7, url := "a.png", refCount := 0, lastUsed := 5 })).1
      (by decide) (by decide) (by decide),
   (cleanup_spares_referenced_and_frees_stale (singleTextureState 1 5) 0 1000000
      AssetType.texture ("a.png", { asset := 7, url := "a.png", refCount := 1, lastUsed := 5 })).2
      (by decide) (by decide)⟩

theorem refBounded_mono {s : AMState} {b1 b2 : Int} (hle : b2 ≤ b1) (h : refBounded s b1) :
    refBounded s b2 :=
  fun kind p hp => le_trans hle (h kind p hp)

theorem refBounded_setCacheOf {s : AMState} {b : Int} (h : refBounded s b) (k : AssetType)
    {c : List (String × AssetCacheEntry)} (hc : ∀ p ∈ c, b ≤ p.2.refCount) :
    refBounded (s.setCacheOf k c) b := by
  intro kind p hp
  rw [cacheOf_setCacheOf] at hp
  by_cases hk : kind = k
  · rw [if_pos hk] at hp
    exact hc p hp
  · rw [if_neg hk] at hp
    exact h kind p hp

theorem refBounded_AMStep {s : AMState} {b : Int} (hb : b ≤ 1) (h : refBounded s b)
    (op : AMOp) : refBounded (AMStep s op) (b - (releaseCount [op] : Int)) := by
  cases op with
  | load kind url pr now =>
    rw [show ((releaseCount [AMOp.load kind url pr now] : Nat) : Int) = 0 from rfl, sub_zero]
    cases hl : (s.cacheOf kind).lookup url with
    | none =>
      intro kind2 p hp
      simp only [AMStep, loadAsset, hl, cacheOf_withSched] at hp
      exact h kind2 p hp
    | some c =>
      have hset : refBounded (s.setCacheOf kind (mapSet (s.cacheOf kind) url
          { c with refCount := c.refCount + 1, lastUsed := now })) b := by
        apply refBounded_setCacheOf h kind
        intro p hp
        rcases mem_mapSet hp with he | hm
        · rw [he]
          have hc : b ≤ c.refCount := h kind (url, c) (lookup_mem hl)
          show b ≤ c.refCount + 1
          omega
        · exact h kind p hm
      intro kind2 p hp
      simp only [AMStep, loadAsset, hl] at hp
      exact hset kind2 p hp
  | completeSuccess kind url asset now =>
    rw [show ((releaseCount [AMOp.completeSuccess kind url asset now] : Nat) : Int) = 0
        from rfl, sub_zero]
    have hset : refBounded (s.setCacheOf kind (mapSet (s.cacheOf kind) url
        { asset := asset, url := url, refCount := 1, lastUsed := now })) b := by
      apply refBounded_setCacheOf h kind
      intro p hp
      rcases mem_mapSet hp with he | hm
      · rw [he]
        exact hb
      · exact h kind p hm
    intro kind2 p hp
    simp only [AMStep, completeLoadSuccess] at hp
    rw [cacheOf_finallyStep] at hp
    by_cases hj : kind = AssetType.json
    · rw [if_pos hj, cacheOf_withEvents] at hp
      exact hset kind2 p hp
    · rw [if_neg hj] at hp
      exact hset kind2 p hp
  | completeFailure kind url =>
    rw [show ((releaseCount [AMOp.completeFailure kind url] : Nat) : Int) = 0 from rfl,
        sub_zero]
    intro kind2 p hp
    simp only [AMStep, completeLoadFailure] at hp
    rw [cacheOf_finallyStep] at hp
    by_cases hj : kind = AssetType.json
    · rw [if_pos hj, cacheOf_withEvents] at hp
      exact h kind2 p hp
    · rw [if_neg hj] at hp
      exact h kind2 p hp
  | release url ty =>
    rw [show ((releaseCount [AMOp.release url ty] : Nat) : Int) = 1 from rfl]
    cases hl : (s.cacheOf ty).lookup url with
    | none =>
      intro kind2 p hp
      simp only [AMStep, releaseAsset, hl] at hp
      exact le_trans (by omega) (h kind2 p hp)
    | some c =>
      intro kind2 p hp
      simp only [AMStep, releaseAsset, hl] at hp
      rw [cacheOf_setCacheOf] at hp
      by_cases hk : kind2 = ty
      · rw [if_pos hk] at hp
        rcases mem_mapSet hp with he | hm
        · rw [he]
          have hc : b ≤ c.refCount := h ty (url, c) (lookup_mem hl)
          show b - 1 ≤ c.refCount - 1
          omega
        · exact le_trans (by omega) (h ty p hm)
      · rw [if_neg hk] at hp
        exact le_trans (by omega) (h kind2 p hp)
  | cleanup maxAgeMs now =>
    rw [show ((releaseCount [AMOp.cleanup maxAgeMs now] : Nat) : Int) = 0 from rfl, sub_zero]
    intro kind2 p hp
    simp only [AMStep] at hp
    rw [cacheOf_cleanupUnusedAssets] at hp
    exact h kind2 p (List.mem_filter.mp hp).1
  | clone url now =>
    rw [show ((releaseCount [AMOp.clone url now] : Nat) : Int) = 0 from rfl, sub_zero]
    cases hl : s.modelCache.lookup url with
    | none =>
      intro kind2 p hp
      simp only [AMStep, cloneModel, hl] at hp
      exact h kind2 p hp
    | some c =>
      have hset : refBounded (s.setCacheOf AssetType.model (mapSet s.modelCache url
          { c with refCount := c.refCount + 1, lastUsed := now })) b := by
        apply refBounded_setCacheOf h AssetType.model
        intro p hp
        rcases mem_mapSet hp with he | hm
        · rw [he]
          have hc : b ≤ c.refCount := h AssetType.model (url, c) (lookup_mem hl)
          show b ≤ c.refCount + 1
          omega
        · exact h AssetType.model p hm
      intro kind2 p hp
      simp only [AMStep, cloneModel, hl] at hp
      exact hset kind2 p hp
  | dispose =>
    rw [show ((releaseCount [AMOp.dispose] : Nat) : Int) = 0 from rfl, sub_zero]
    intro kind2 p hp
    simp only [AMStep] at hp
    rw [cacheOf_amDispose] at hp
    exact absurd hp (List.not_mem_nil p)

theorem refBounded_AMRun {s : AMState} {b : Int} (hb : b ≤ 1) (h : refBounded s b)
    (ops : List AMOp) : refBounded (AMRun s ops) (b - (releaseCount ops : Int)) := by
  induction ops generalizing s b with
  | nil => simpa [AMRun, releaseCount] using h
  | cons op t ih =>
    have h2 := refBounded_AMStep hb h op
    have hb2 : b - (releaseCount [op] : Int) ≤ 1 := by
      have hnn : (0 : Int) ≤ (releaseCount [op] : Int) := Int.ofNat_nonneg _
      omega
    have h3 := ih hb2 h2
    have harith : b - (releaseCount [op] : Int) - (releaseCount t : Int)
        = b - (releaseCount (op :: t) : Int) := by
      cases op <;> simp [releaseCount] <;> omega
    rw [harith] at h3
    exact h3

/-- Claim C7, counterexample: a reachable sequence (load and complete a
texture, then call `releaseAsset` twice on it) leaves a cache entry whose
refCount is -1, refuting the invariant refCount ≥ 0. -/
theorem double_release_negative_refCount_counterexample :
    (AMRun AMInit [AMOp.load AssetType.texture "a.png" LoadPriority.normal 0,
        AMOp.completeSuccess AssetType.texture "a.png" 7 5,
        AMOp.release "a.png" AssetType.texture,
        AMOp.release "a.png" AssetType.texture]).textureCache.lookup "a.png"
      = some { asset := 7, url := "a.png", refCount := -1, lastUsed := 5 } := by
  rfl

/-- Claim C7, amended: a cache entry's reference count is an integer
bounded below by 1 minus the number of `releaseAsset` calls performed
(`releaseAsset` decrements with no floor, every other operation installs
or keeps counts at 1 or above); in particular refCount ≥ 0 whenever no
release has been unmatched, but unmatched releases drive it negative. -/
theorem assetManager_refCount_lower_bound (ops : List AMOp) (kind : AssetType)
    (p : String × AssetCacheEntry) (hp : p ∈ (AMRun AMInit ops).cacheOf kind) :
    (1 : Int) - (releaseCount ops : Int) ≤ p.2.refCount := by
  have h0 : refBounded AMInit 1 := by
    intro k q hq
    cases k <;> simp [AMInit, AMInitCap, AMState.cacheOf] at hq
  exact refBounded_AMRun le_rfl h0 ops kind p hp

/-- Witness for the amended C7 theorem at a release-free run: after a
load and its successful completion, the sole entry has refCount 1 ≥ 1 - 0. -/
theorem assetManager_refCount_lower_bound_witness :
    (("a.png", { asset := 7, url := "a.png", refCount := 1, lastUsed := 5 })
        ∈ (AMRun AMInit [AMOp.load AssetType.texture "a.png" LoadPriority.normal 0,
            AMOp.completeSuccess AssetType.texture "a.png" 7 5]).cacheOf
            AssetType.texture) ∧
    (1 : Int) - (releaseCount [AMOp.load AssetType.texture "a.png" LoadPriority.normal 0,
        AMOp.completeSuccess AssetType.texture "a.png" 7 5] : Int) ≤ 1 :=
  ⟨by decide, by
    have h := assetManager_refCount_lower_bound
      [AMOp.load AssetType.texture "a.png" LoadPriority.normal 0,
       AMOp.completeSuccess AssetType.texture "a.png" 7 5] AssetType.texture
      ("a.png", { asset := 7, url := "a.png", refCount := 1, lastUsed := 5 }) (by decide)
    simpa using h⟩

end VibePlay
